import Mathlib

set_option maxHeartbeats 1000000

/-!
Verification of the update-route53 reconciliation core (src/main.go,
current revision: the context-aware variant at lines 324-588).

Go strings are modeled as lists of characters, pointers as Option,
the Route 53 client as per-call response oracles, and machine integers
as Nat (uint64 read with a 32-bit bound) or Int (int64 TTL pointers).
-/

namespace UpdateRoute53

/-- Go strings modeled as lists of characters. -/
abbrev GoString := List Char

/-- Go unicode.IsSpace: the Unicode White_Space property
(ASCII 0x09-0x0D and 0x20, plus U+0085, U+00A0, U+1680, U+2000-U+200A,
U+2028, U+2029, U+202F, U+205F, U+3000). -/
def isGoSpace (c : Char) : Bool :=
  c.toNat = 9 || c.toNat = 10 || c.toNat = 11 || c.toNat = 12 ||
  c.toNat = 13 || c.toNat = 32 ||
  c.toNat = 0x85 || c.toNat = 0xA0 || c.toNat = 0x1680 ||
  (0x2000 ≤ c.toNat && c.toNat ≤ 0x200A) ||
  c.toNat = 0x2028 || c.toNat = 0x2029 || c.toNat = 0x202F ||
  c.toNat = 0x205F || c.toNat = 0x3000

/-- Go strings.TrimSpace: drop leading and trailing white space
(src/main.go line 348). -/
def trimSpace (s : GoString) : GoString :=
  ((s.dropWhile isGoSpace).reverse.dropWhile isGoSpace).reverse

/-!
Go net.ParseIP, transcribed from the Go standard library
(net/netip: ParseAddr, parseIPv4Fields, parseIPv6). The program calls
net.ParseIP on the trimmed response body (src/main.go line 349) and only
tests the result against nil. net.ParseIP additionally rejects any
address carrying a non-empty zone, and an empty zone is a parse error,
so every input containing a percent sign fails the IPv6 path.
-/

/-- Go net/netip parseIPv4Fields: scan decimal octets separated by dots.
State: current octet value, digits seen in the current octet, number of
completed octets, completed octets. Rejects a field with a leading zero,
a field value above 255, an empty field, and anything but 4 fields. -/
def ipv4Fields : GoString → Nat → Nat → Nat → List Nat → Option (List Nat)
  | [], val, _, pos, fields =>
      if pos < 3 then none else some (fields ++ [val])
  | c :: rest, val, digLen, pos, fields =>
      if c.isDigit then
        if digLen = 1 ∧ val = 0 then none
        else
          let val' := val * 10 + (c.toNat - 48)
          if 255 < val' then none
          else ipv4Fields rest val' (digLen + 1) pos fields
      else if c = '.' then
        if digLen = 0 ∨ rest = [] then none
        else if pos = 3 then none
        else ipv4Fields rest 0 0 (pos + 1) (fields ++ [val])
      else none

/-- Go net/netip: one IPv6 hex field scan, returning the accumulated
value, the count of hex digits consumed and the rest of the string;
fails when the field value reaches 2^16. -/
def hexScan : GoString → Nat → Nat → Option (Nat × Nat × GoString)
  | [], acc, off => some (acc, off, [])
  | c :: rest, acc, off =>
      if c.isDigit then
        let acc' := acc * 16 + (c.toNat - 48)
        if 65535 < acc' then none else hexScan rest acc' (off + 1)
      else if 'a' ≤ c ∧ c ≤ 'f' then
        let acc' := acc * 16 + (c.toNat - 97 + 10)
        if 65535 < acc' then none else hexScan rest acc' (off + 1)
      else if 'A' ≤ c ∧ c ≤ 'F' then
        let acc' := acc * 16 + (c.toNat - 65 + 10)
        if 65535 < acc' then none else hexScan rest acc' (off + 1)
      else some (acc, off, c :: rest)

/-- Go net/netip parseIPv6, code after the field loop: reject trailing
garbage, expand the ellipsis, reject a too-short address or a redundant
ellipsis. -/
def v6Finish (s : GoString) (i : Nat) (ip : List Nat) (ellipsis : Option Nat) :
    Option (List Nat) :=
  if s ≠ [] then none
  else if i < 16 then
    match ellipsis with
    | none => none
    | some e => some (ip.take e ++ List.replicate (16 - i) 0 ++ ip.drop e)
  else
    match ellipsis with
    | some _ => none
    | none => some ip

/-- Go net/netip parseIPv6 field loop. The loop runs while fewer than 16
address bytes are filled and each iteration adds at least two, so at most
8 iterations happen; the fuel argument (called with 8) only mirrors that
bound to make the recursion structural. -/
def v6Loop : GoString → Nat → List Nat → Option Nat → Nat → Option (List Nat)
  | s, i, ip, ellipsis, 0 => v6Finish s i ip ellipsis
  | s, i, ip, ellipsis, fuel + 1 =>
      if 16 ≤ i then v6Finish s i ip ellipsis
      else
        match hexScan s 0 0 with
        | none => none
        | some (acc, off, rest) =>
          if off = 0 then none
          else
            match rest with
            | '.' :: _ =>
                if ellipsis.isNone ∧ i ≠ 12 then none
                else if 16 < i + 4 then none
                else
                  match ipv4Fields s 0 0 0 [] with
                  | none => none
                  | some fs => v6Finish [] (i + 4) (ip ++ fs) ellipsis
            | _ =>
              let ip' := ip ++ [acc / 256, acc % 256]
              let i' := i + 2
              match rest with
              | [] => v6Finish [] i' ip' ellipsis
              | [':'] => none
              | ':' :: ':' :: rest2 =>
                  if ellipsis.isSome then none
                  else if rest2 = [] then v6Finish [] i' ip' (some i')
                  else v6Loop rest2 i' ip' (some i') fuel
              | ':' :: rest1 => v6Loop rest1 i' ip' ellipsis fuel
              | _ => none

/-- Go net/netip parseIPv6 as used through net.ParseIP: any input with a
zone marker fails (empty zone is a parse error, a non-empty zone is
rejected by net.ParseIP itself); a leading double colon sets the ellipsis. -/
def parseIPv6 (s : GoString) : Option (List Nat) :=
  if s.contains '%' then none
  else
    match s with
    | ':' :: ':' :: rest =>
        if rest = [] then some (List.replicate 16 0)
        else v6Loop rest 0 [] (some 0) 8
    | _ => v6Loop s 0 [] none 8

/-- Go net/netip ParseAddr dispatch: the first dot, colon or percent sign
decides the parse; none of them means failure. -/
def findSpecial : GoString → Option Char
  | [] => none
  | c :: rest =>
      if c = '.' ∨ c = ':' ∨ c = '%' then some c else findSpecial rest

/-- Go net.ParseIP. An IPv4 parse is returned in its 16-byte mapped form,
exactly as net.ParseIP does via As16. -/
def goParseIP (s : GoString) : Option (List Nat) :=
  match findSpecial s with
  | some ch =>
      if ch = '.' then
        (ipv4Fields s 0 0 0 []).map
          (fun fs => [0, 0, 0, 0, 0, 0, 0, 0, 0, 0, 255, 255] ++ fs)
      else if ch = ':' then parseIPv6 s
      else none
  | none => none

/-- The IP Observer acceptance test of src/main.go lines 347-355: trim the
response body and require net.ParseIP to succeed. -/
def observeAccepts (body : GoString) : Bool :=
  (goParseIP (trimSpace body)).isSome

/-- The decimal digit characters. -/
def digitChar : Nat → Char
  | 0 => '0'
  | 1 => '1'
  | 2 => '2'
  | 3 => '3'
  | 4 => '4'
  | 5 => '5'
  | 6 => '6'
  | 7 => '7'
  | 8 => '8'
  | 9 => '9'
  | _ => '0'

/-- Canonical decimal digits of a natural number, most significant first,
with a fuel argument (ten-fold smaller number each step) so that the
definition reduces in the kernel. -/
def natDigitsAux : Nat → Nat → GoString
  | 0, _ => []
  | fuel + 1, n =>
      if n < 10 then [digitChar n]
      else natDigitsAux fuel (n / 10) ++ [digitChar (n % 10)]

/-- Canonical decimal representation of a natural number. -/
def natDigits (n : Nat) : GoString := natDigitsAux (n + 1) n

/-- A dotted-quad IPv4 literal: the four octets rendered in canonical
decimal and joined by dots. -/
def quadStr (a b c d : Nat) : GoString :=
  natDigits a ++ '.' :: (natDigits b ++ '.' :: (natDigits c ++ '.' :: natDigits d))

/-- Decimal value of a digit string continued from an accumulator,
accumulating exactly as the parser does. -/
def foldval : Nat → GoString → Nat
  | v, [] => v
  | v, c :: ds => foldval (v * 10 + (c.toNat - 48)) ds

/-- Decimal value of a digit string. -/
def digitsVal (ds : GoString) : Nat := foldval 0 ds

/-- No leading zero: a digit string starting with a zero is exactly that
zero. -/
def noLeadZero (ds : GoString) : Prop := ∀ rest, ds = '0' :: rest → rest = []

/-!
The Route 53 data model (github.com/aws/aws-sdk-go-v2/service/route53):
pointer-typed fields become Option, int64 TTL becomes Int, uint64
conversion wraps modulo 2^64.
-/

/-- Record type of a resource record set; the program only ever tests
against the address type A. -/
inductive RRType
  | A
  | AAAA
  | CNAME
  | NS
  | SOA
  | TXT
  | MX
deriving DecidableEq

/-- types.ResourceRecord: a single record value (pointer to string). -/
structure ResourceRecord where
  Value : Option GoString
deriving DecidableEq

/-- types.ResourceRecordSet as the program reads and writes it. -/
structure ResourceRecordSet where
  Name : Option GoString
  rrType : RRType
  TTL : Option Int
  ResourceRecords : List ResourceRecord
deriving DecidableEq

/-- route53.ListResourceRecordSetsInput: zone plus continuation markers. -/
structure ListInput where
  HostedZoneId : Option GoString
  StartRecordName : Option GoString
  StartRecordType : Option RRType
  StartRecordIdentifier : Option GoString
deriving DecidableEq

/-- route53.ListResourceRecordSetsOutput: one page of record sets with
the truncation flag and continuation markers. -/
structure ListOutput where
  ResourceRecordSets : List ResourceRecordSet
  IsTruncated : Bool
  NextRecordName : Option GoString
  NextRecordType : Option RRType
  NextRecordIdentifier : Option GoString
deriving DecidableEq

/-- Go uint64(x) on an int64 value: two's complement wrap into 0..2^64-1. -/
def toUint64 (x : Int) : Nat := (x.emod (2 ^ 64)).toNat

/-- Outcome of getCurrentRecordValue. The source returns ("", 0, nil) for
an absent record, an error verbatim, or panics on a nil dereference or an
out-of-range index; fuelOut is the modeling artifact for a truncation
chain longer than the fuel (the source would still be looping). -/
inductive GetRecordResult
  | ok (value : GoString) (ttl : Nat)
  | provErr
  | panicked
  | fuelOut
deriving DecidableEq

/-- The inner loop of getCurrentRecordValue (src/main.go lines 440-444):
find the first record set whose dereferenced name is the configured name
plus a trailing dot with type A, and return its first record value and
TTL; dereferencing a nil name, indexing an empty record list, or
dereferencing a nil value or TTL panics. Returns none when the page has
no match. -/
def findInPage (dnsName : GoString) : List ResourceRecordSet → Option GetRecordResult
  | [] => none
  | rs :: rest =>
      match rs.Name with
      | none => some .panicked
      | some nm =>
        if nm = dnsName ++ ['.'] ∧ rs.rrType = .A then
          match rs.ResourceRecords with
          | [] => some .panicked
          | r :: _ =>
            match r.Value, rs.TTL with
            | some v, some t => some (.ok v (toUint64 t))
            | _, _ => some .panicked
        else findInPage dnsName rest

/-- The pagination loop of getCurrentRecordValue (src/main.go lines
435-451): list a page, return the first match if any, stop with
("", 0, nil) when the page is not truncated, otherwise continue from the
returned continuation markers. The provider is a response oracle from
inputs to outputs; the result carries the number of provider calls made. -/
def getCurrentRecordValueLoop (svc : ListInput → Except Unit ListOutput)
    (dnsName : GoString) : ListInput → Nat → GetRecordResult × Nat
  | _, 0 => (.fuelOut, 0)
  | input, fuel + 1 =>
      match svc input with
      | .error _ => (.provErr, 1)
      | .ok output =>
        match findInPage dnsName output.ResourceRecordSets with
        | some r => (r, 1)
        | none =>
          if output.IsTruncated then
            let input' := { input with
              StartRecordName := output.NextRecordName,
              StartRecordType := output.NextRecordType,
              StartRecordIdentifier := output.NextRecordIdentifier }
            let r := getCurrentRecordValueLoop svc dnsName input' fuel
            (r.1, r.2 + 1)
          else (.ok [] 0, 1)

/-- The initial list input of getCurrentRecordValue (src/main.go lines
432-434): the zone id prefixed with /hostedzone/, no markers. -/
def initialListInput (hostedZoneId : GoString) : ListInput :=
  { HostedZoneId := some ("/hostedzone/".toList ++ hostedZoneId),
    StartRecordName := none,
    StartRecordType := none,
    StartRecordIdentifier := none }

/-- getCurrentRecordValue (src/main.go lines 431-453). -/
def getCurrentRecordValue (svc : ListInput → Except Unit ListOutput)
    (dnsName hostedZoneId : GoString) (fuel : Nat) : GetRecordResult × Nat :=
  getCurrentRecordValueLoop svc dnsName (initialListInput hostedZoneId) fuel

/-- types.ChangeAction. -/
inductive ChangeAction
  | upsert
  | create
  | delete
deriving DecidableEq

/-- types.Change. -/
structure Change where
  Action : ChangeAction
  ResourceRecordSet : Option ResourceRecordSet
deriving DecidableEq

/-- types.ChangeBatch. -/
structure ChangeBatch where
  Changes : List Change
deriving DecidableEq

/-- route53.ChangeResourceRecordSetsInput. -/
structure ChangeInput where
  changeBatch : Option ChangeBatch
  HostedZoneId : Option GoString
deriving DecidableEq

/-- types.ChangeInfo (pointer-valued id). -/
structure ChangeInfo where
  Id : Option GoString
deriving DecidableEq

/-- route53.ChangeResourceRecordSetsOutput (pointer-valued change info). -/
structure ChangeOutput where
  changeInfo : Option ChangeInfo
deriving DecidableEq

/-- The change batch built at src/main.go lines 378-393: exactly one
upsert for the configured name (as configured, no trailing dot), type A,
the configured TTL and the single observed value, against the prefixed
zone id. -/
def mkChangeInput (dnsName hostedZoneId : GoString) (dnsTTL : Nat)
    (ipstr : GoString) : ChangeInput :=
  { changeBatch := some
      { Changes := [
          { Action := .upsert,
            ResourceRecordSet := some
              { Name := some dnsName,
                rrType := .A,
                TTL := some (Int.ofNat dnsTTL),
                ResourceRecords := [{ Value := some ipstr }] } }] },
    HostedZoneId := some ("/hostedzone/".toList ++ hostedZoneId) }

/-- One status poll as seen by the propagation waiter: the change is
INSYNC, still pending, the poll errored, or the calling context was
cancelled. -/
inductive PollStep
  | insync
  | pending
  | pollErr
  | ctxCancelled
deriving DecidableEq

/-- Outcome of the propagation wait. -/
inductive WaitOutcome
  | ok
  | timeout
  | cancelled
  | pollErr
deriving DecidableEq

/-- Modelled from the spec: the body of waiter.Wait
(route53.NewResourceRecordSetsChangedWaiter, an AWS SDK internal that is
not part of src/) polls the change status at a fixed cadence (reference
10 seconds) until the change is INSYNC, the maximum wait elapses
(reference 5 minutes, here maxPolls attempts), the context is cancelled,
or a poll fails; cancellation is distinct from the deadline. -/
def awaitPropagation (poll : Nat → PollStep) : Nat → Nat → WaitOutcome
  | _, 0 => .timeout
  | i, n + 1 =>
      match poll i with
      | .insync => .ok
      | .ctxCancelled => .cancelled
      | .pollErr => .pollErr
      | .pending => awaitPropagation poll (i + 1) n

/-- The configuration the cycle reads (parsed in main; DNS_TTL is parsed
with ParseUint(.., 10, 32), so dnsTTL is below 2^32). -/
structure Config where
  dnsName : GoString
  dnsTTL : Nat
  hostedZoneId : GoString
deriving DecidableEq

/-- Result of the address fetch (src/main.go lines 329-345): request
construction, transport, or body read can fail; otherwise the raw body. -/
inductive FetchResult
  | reqErr
  | doErr
  | readErr
  | ok (body : GoString)
deriving DecidableEq

/-- The cycle's external collaborators. The Route 53 client is stateful
across the cycle, so the record listing gets one response oracle for the
pre-write read and another for the post-propagation confirm read; the
propagation waiter is driven by a status-poll oracle. -/
structure CycleEnv where
  fetch : FetchResult
  list1 : ListInput → Except Unit ListOutput
  change : ChangeInput → Except Unit ChangeOutput
  poll : Nat → PollStep
  list2 : ListInput → Except Unit ListOutput

/-- Terminal state of one reconciliation cycle, following the return
paths of updateRoute53 (src/main.go lines 324-429). -/
inductive CycleResult
  | fetchFailed
  | parseFailed
  | readFailed
  | readPanicked
  | readFuelOut
  | noop
  | changeFailed
  | changePanicked
  | trackTimeout
  | trackPollErr
  | trackCancelled
  | confirmFailed
  | confirmPanicked
  | confirmFuelOut
  | done
deriving DecidableEq

/-- Observable outcome of one cycle: terminal state, the change input
submitted to ChangeResourceRecordSets if any, and the increment applied
to the updatesTotal counter. -/
structure CycleOutcome where
  result : CycleResult
  submitted : Option ChangeInput
  updatesInc : Nat
deriving DecidableEq

/-- The write-and-track tail of updateRoute53 (src/main.go lines
394-428): submit the change, bump updatesTotal on submission success
(before the change id is dereferenced), wait for propagation
(distinguishing context cancellation from other wait failures), and
re-read the record to confirm. -/
def submitAndTrack (cfg : Config) (env : CycleEnv) (readFuel waitPolls : Nat)
    (input : ChangeInput) : CycleOutcome :=
  match env.change input with
  | .error _ => ⟨.changeFailed, some input, 0⟩
  | .ok changeOutput =>
    match changeOutput.changeInfo with
    | none => ⟨.changePanicked, some input, 1⟩
    | some ci =>
      match ci.Id with
      | none => ⟨.changePanicked, some input, 1⟩
      | some _ =>
        match awaitPropagation env.poll 0 waitPolls with
        | .timeout => ⟨.trackTimeout, some input, 1⟩
        | .pollErr => ⟨.trackPollErr, some input, 1⟩
        | .cancelled => ⟨.trackCancelled, some input, 1⟩
        | .ok =>
          match (getCurrentRecordValue env.list2 cfg.dnsName cfg.hostedZoneId readFuel).1 with
          | .provErr => ⟨.confirmFailed, some input, 1⟩
          | .panicked => ⟨.confirmPanicked, some input, 1⟩
          | .fuelOut => ⟨.confirmFuelOut, some input, 1⟩
          | .ok _ _ => ⟨.done, some input, 1⟩

/-- updateRoute53 (src/main.go lines 324-429): fetch the address, trim
and validate it, read the current record, stop when both the value and
the TTL match, otherwise submit a single upsert and track it.
readFuel bounds both pagination loops; waitPolls bounds the status polls. -/
def updateRoute53 (cfg : Config) (env : CycleEnv) (readFuel waitPolls : Nat) :
    CycleOutcome :=
  match env.fetch with
  | .reqErr => ⟨.fetchFailed, none, 0⟩
  | .doErr => ⟨.fetchFailed, none, 0⟩
  | .readErr => ⟨.fetchFailed, none, 0⟩
  | .ok body =>
    let ipstr := trimSpace body
    match goParseIP ipstr with
    | none => ⟨.parseFailed, none, 0⟩
    | some _ =>
      match (getCurrentRecordValue env.list1 cfg.dnsName cfg.hostedZoneId readFuel).1 with
      | .provErr => ⟨.readFailed, none, 0⟩
      | .panicked => ⟨.readPanicked, none, 0⟩
      | .fuelOut => ⟨.readFuelOut, none, 0⟩
      | .ok currentRecordValue currentRecordTTL =>
        if currentRecordValue = ipstr ∧ currentRecordTTL = cfg.dnsTTL then
          ⟨.noop, none, 0⟩
        else
          submitAndTrack cfg env readFuel waitPolls
            (mkChangeInput cfg.dnsName cfg.hostedZoneId cfg.dnsTTL ipstr)

/-- Concrete test configuration (mirrors the repository's test fixtures). -/
def cfgEx : Config :=
  { dnsName := "home.example.com".toList, dnsTTL := 300,
    hostedZoneId := "ZXXXXXXXXX".toList }

/-- Concrete one-record non-truncated page for the test configuration. -/
def pageEx (v : String) (ttl : Int) : ListOutput :=
  { ResourceRecordSets := [
      { Name := some "home.example.com.".toList, rrType := .A, TTL := some ttl,
        ResourceRecords := [{ Value := some v.toList }] }],
    IsTruncated := false, NextRecordName := none, NextRecordType := none,
    NextRecordIdentifier := none }

/-- Concrete cycle environment: the record reads back 1.2.3.4 at TTL 300,
changes succeed, and the first status poll is INSYNC. -/
def envEx (body : String) : CycleEnv :=
  { fetch := .ok body.toList,
    list1 := fun _ => .ok (pageEx "1.2.3.4" 300),
    change := fun _ => .ok { changeInfo := some { Id := some "C123".toList } },
    poll := fun _ => .insync,
    list2 := fun _ => .ok (pageEx "5.6.7.8" 300) }

/-- Concrete cycle environment whose address fetch fails in transport. -/
def envFetchErr : CycleEnv :=
  { fetch := .doErr,
    list1 := fun _ => .error (),
    change := fun _ => .error (),
    poll := fun _ => .pending,
    list2 := fun _ => .error () }

/-- Concrete empty final page. -/
def emptyPageEx : ListOutput :=
  { ResourceRecordSets := [], IsTruncated := false, NextRecordName := none,
    NextRecordType := none, NextRecordIdentifier := none }

/-- Concrete first page: truncated, carrying continuation markers, no
record sets. -/
def page1Ex : ListOutput :=
  { ResourceRecordSets := [], IsTruncated := true,
    NextRecordName := some "other.example.com.".toList,
    NextRecordType := some .A, NextRecordIdentifier := none }

/-- Concrete second page holding the matching record 5.6.7.8 at TTL 60. -/
def page2Ex : ListOutput := pageEx "5.6.7.8" 60

/-- Concrete two-page provider keyed on the continuation marker. -/
def svcTwoPage : ListInput → Except Unit ListOutput := fun inp =>
  match inp.StartRecordName with
  | none => .ok page1Ex
  | some _ => .ok page2Ex

/-- Concrete page whose matching record set carries no values. -/
def pagePanicEx : ListOutput :=
  { ResourceRecordSets := [
      { Name := some "home.example.com.".toList, rrType := .A, TTL := some 300,
        ResourceRecords := [] }],
    IsTruncated := false, NextRecordName := none, NextRecordType := none,
    NextRecordIdentifier := none }

/-- Concrete cycle environment that reads an absent record. -/
def envAbsent : CycleEnv :=
  { fetch := .ok "1.2.3.4\n".toList,
    list1 := fun _ => .ok emptyPageEx,
    change := fun _ => .ok { changeInfo := some { Id := some "C123".toList } },
    poll := fun _ => .insync,
    list2 := fun _ => .ok emptyPageEx }

end UpdateRoute53

namespace UpdateRoute53

/-- Helper: a poll oracle that keeps answering pending drives the wait to
its timeout outcome from any start index. -/
theorem awaitPropagation_pending (poll : Nat → PollStep)
    (h : ∀ i, poll i = .pending) :
    ∀ n i, awaitPropagation poll i n = .timeout := by
  intro n
  induction n with
  | zero => intro i; rfl
  | succ n ih =>
      intro i
      simp only [awaitPropagation, h i]
      exact ih (i + 1)

/-- Helper: a pending prefix followed by a cancellation poll drives the
wait to the cancelled outcome. -/
theorem awaitPropagation_cancelled (poll : Nat → PollStep) :
    ∀ n i k, k < n → (∀ j, j < k → poll (i + j) = .pending) →
    poll (i + k) = .ctxCancelled →
    awaitPropagation poll i n = .cancelled := by
  intro n
  induction n with
  | zero => intro i k hk; omega
  | succ n ih =>
      intro i k hk hpend hc
      cases k with
      | zero =>
          simp only [awaitPropagation]
          rw [show i + 0 = i from rfl] at hc
          rw [hc]
      | succ k =>
          have h0 : poll i = .pending := by
            have := hpend 0 (Nat.succ_pos k)
            simpa using this
          simp only [awaitPropagation, h0]
          refine ih (i + 1) k (by omega) ?_ ?_
          · intro j hj
            have := hpend (j + 1) (by omega)
            rw [show i + (j + 1) = i + 1 + j by omega] at this
            exact this
          · rw [show i + 1 + k = i + (k + 1) by omega]
            exact hc

/-- Claim C7: for every status-poll oracle that never reports the change
as propagated, the propagation wait terminates with the timeout outcome
once the maximum number of polls (the 5-minute bound at the 10-second
cadence) elapses, for every such bound. -/
theorem spec_C7 (poll : Nat → PollStep) (maxPolls : Nat)
    (h : ∀ i, poll i = .pending) :
    awaitPropagation poll 0 maxPolls = .timeout :=
  awaitPropagation_pending poll h maxPolls 0

/-- Claim C7 witness: a concrete never-propagating oracle at the
reference bound of 30 polls. -/
theorem spec_C7_witness :
    awaitPropagation (fun _ => .pending) 0 30 = .timeout :=
  spec_C7 (fun _ => .pending) 30 (fun _ => rfl)

/-- Claim C8: a cancellation arriving mid-poll, before the poll budget is
exhausted, makes the wait return the cancelled outcome, which is distinct
from the timeout outcome returned when the bound elapses. -/
theorem spec_C8 (poll : Nat → PollStep) (maxPolls k : Nat)
    (hk : k < maxPolls)
    (hpend : ∀ j, j < k → poll j = .pending)
    (hc : poll k = .ctxCancelled) :
    awaitPropagation poll 0 maxPolls = .cancelled ∧
      WaitOutcome.cancelled ≠ WaitOutcome.timeout := by
  refine ⟨?_, by simp⟩
  refine awaitPropagation_cancelled poll maxPolls 0 k hk ?_ ?_
  · intro j hj; simpa using hpend j hj
  · simpa using hc

/-- Claim C8 witness: cancellation at the third poll of a 30-poll budget. -/
theorem spec_C8_witness :
    awaitPropagation (fun i => if i < 2 then .pending else .ctxCancelled) 0 30 =
      .cancelled ∧ WaitOutcome.cancelled ≠ WaitOutcome.timeout :=
  spec_C8 (fun i => if i < 2 then .pending else .ctxCancelled) 30 2
    (by omega) (fun j hj => by simp [hj]) (by simp)

end UpdateRoute53

namespace UpdateRoute53

/-- Helper: every outcome of the write-and-track phase records the
submitted input and never the noop state. -/
theorem submitAndTrack_submitted (cfg : Config) (env : CycleEnv)
    (readFuel waitPolls : Nat) (input : ChangeInput) :
    (submitAndTrack cfg env readFuel waitPolls input).submitted = some input ∧
      (submitAndTrack cfg env readFuel waitPolls input).result ≠ .noop := by
  unfold submitAndTrack
  split
  · simp
  · split
    · simp
    · split
      · simp
      · split <;> try simp
        split <;> simp

/-- Helper: the counter increment of the write-and-track phase is one
exactly when the change submission returned successfully, and never
exceeds one. -/
theorem submitAndTrack_inc (cfg : Config) (env : CycleEnv)
    (readFuel waitPolls : Nat) (input : ChangeInput) :
    ((submitAndTrack cfg env readFuel waitPolls input).updatesInc = 1 ↔
      ∃ co, env.change input = .ok co) ∧
      (submitAndTrack cfg env readFuel waitPolls input).updatesInc ≤ 1 := by
  unfold submitAndTrack
  split
  · rename_i e heq
    simp [heq]
  · rename_i co heq
    rw [heq]
    refine ⟨⟨fun _ => ⟨co, rfl⟩, fun _ => ?_⟩, ?_⟩
    · split
      · simp
      · split
        · simp
        · split <;> try simp
          split <;> simp
    · split
      · simp
      · split
        · simp
        · split <;> try simp
          split <;> simp

/-- Claim C1: with the observed address and the current record state both
obtained successfully, the cycle is a no-op with nothing submitted exactly
when the record value equals the trimmed observed address and the record
TTL equals the configured TTL; in every other case (address differs, TTL
differs, or record absent) the upsert is submitted: the cycle hands the
built change input to ChangeResourceRecordSets and does not end as a
no-op. -/
theorem spec_C1 (cfg : Config) (env : CycleEnv) (readFuel waitPolls : Nat)
    (body : GoString) (ipbytes : List Nat) (v : GoString) (t : Nat)
    (hfetch : env.fetch = .ok body)
    (hparse : goParseIP (trimSpace body) = some ipbytes)
    (hread : (getCurrentRecordValue env.list1 cfg.dnsName cfg.hostedZoneId readFuel).1 =
      .ok v t) :
    (((updateRoute53 cfg env readFuel waitPolls).result = .noop ∧
      (updateRoute53 cfg env readFuel waitPolls).submitted = none) ↔
     (v = trimSpace body ∧ t = cfg.dnsTTL)) ∧
    (¬(v = trimSpace body ∧ t = cfg.dnsTTL) →
      (updateRoute53 cfg env readFuel waitPolls).submitted =
        some (mkChangeInput cfg.dnsName cfg.hostedZoneId cfg.dnsTTL (trimSpace body)) ∧
      (updateRoute53 cfg env readFuel waitPolls).result ≠ .noop) := by
  unfold updateRoute53
  rw [hfetch]
  simp only [hparse, hread]
  by_cases hc : v = trimSpace body ∧ t = cfg.dnsTTL
  · exact ⟨by simp [hc], fun hneg => absurd hc hneg⟩
  · rw [if_neg hc]
    have h1 := submitAndTrack_submitted cfg env readFuel waitPolls
      (mkChangeInput cfg.dnsName cfg.hostedZoneId cfg.dnsTTL (trimSpace body))
    exact ⟨⟨fun h => absurd h.1 h1.2, fun h => absurd h hc⟩,
      fun _ => ⟨h1.1, h1.2⟩⟩

/-- Claim C1 witness: on the matching record and address the cycle is a
no-op with nothing submitted; with the same address but configured TTL 60
against record TTL 300 (TTL-only drift) the upsert is submitted. -/
theorem spec_C1_witness :
    ((updateRoute53 cfgEx (envEx "1.2.3.4\n") 1 1).result = .noop ∧
      (updateRoute53 cfgEx (envEx "1.2.3.4\n") 1 1).submitted = none) ∧
    (updateRoute53
        { dnsName := "home.example.com".toList,
          dnsTTL := 60,
          hostedZoneId := "ZXXXXXXXXX".toList }
        (envEx "1.2.3.4\n") 1 1).submitted =
      some (mkChangeInput "home.example.com".toList "ZXXXXXXXXX".toList 60
        (trimSpace "1.2.3.4\n".toList)) :=
  ⟨(spec_C1 cfgEx (envEx "1.2.3.4\n") 1 1 "1.2.3.4\n".toList
      [0, 0, 0, 0, 0, 0, 0, 0, 0, 0, 255, 255, 1, 2, 3, 4]
      "1.2.3.4".toList 300 rfl rfl rfl).1.mpr ⟨rfl, rfl⟩,
   ((spec_C1
      { dnsName := "home.example.com".toList,
        dnsTTL := 60,
        hostedZoneId := "ZXXXXXXXXX".toList }
      (envEx "1.2.3.4\n") 1 1
      "1.2.3.4\n".toList [0, 0, 0, 0, 0, 0, 0, 0, 0, 0, 255, 255, 1, 2, 3, 4]
      "1.2.3.4".toList 300 rfl rfl rfl).2
      (fun hc => absurd hc.2 (by decide))).1⟩

/-- Claim C5: when the observed address differs from the current record
value, the submitted change batch is exactly one upsert carrying the
configured hostname as given (no trailing dot), record type A, the
observed address as single value, the configured TTL, and the configured
zone identifier in its /hostedzone/ form. -/
theorem spec_C5 (cfg : Config) (env : CycleEnv) (readFuel waitPolls : Nat)
    (body : GoString) (ipbytes : List Nat) (v : GoString) (t : Nat)
    (hfetch : env.fetch = .ok body)
    (hparse : goParseIP (trimSpace body) = some ipbytes)
    (hread : (getCurrentRecordValue env.list1 cfg.dnsName cfg.hostedZoneId readFuel).1 =
      .ok v t)
    (hneq : v ≠ trimSpace body) :
    (updateRoute53 cfg env readFuel waitPolls).submitted = some
      { changeBatch := some
          { Changes := [
              { Action := .upsert,
                ResourceRecordSet := some
                  { Name := some cfg.dnsName,
                    rrType := .A,
                    TTL := some (Int.ofNat cfg.dnsTTL),
                    ResourceRecords := [{ Value := some (trimSpace body) }] } }] },
        HostedZoneId := some ("/hostedzone/".toList ++ cfg.hostedZoneId) } := by
  unfold updateRoute53
  rw [hfetch]
  simp only [hparse, hread]
  rw [if_neg (by intro hc; exact hneq hc.1)]
  exact (submitAndTrack_submitted cfg env readFuel waitPolls
    (mkChangeInput cfg.dnsName cfg.hostedZoneId cfg.dnsTTL (trimSpace body))).1

/-- Claim C5 witness: the drifted address 5.6.7.8 against record 1.2.3.4
produces exactly the claimed upsert. -/
theorem spec_C5_witness :
    (updateRoute53 cfgEx (envEx "5.6.7.8\n") 1 1).submitted = some
      { changeBatch := some
          { Changes := [
              { Action := .upsert,
                ResourceRecordSet := some
                  { Name := some cfgEx.dnsName,
                    rrType := .A,
                    TTL := some (Int.ofNat cfgEx.dnsTTL),
                    ResourceRecords :=
                      [{ Value := some (trimSpace "5.6.7.8\n".toList) }] } }] },
        HostedZoneId := some ("/hostedzone/".toList ++ cfgEx.hostedZoneId) } :=
  spec_C5 cfgEx (envEx "5.6.7.8\n") 1 1 "5.6.7.8\n".toList
    [0, 0, 0, 0, 0, 0, 0, 0, 0, 0, 255, 255, 5, 6, 7, 8]
    "1.2.3.4".toList 300 rfl rfl rfl (by decide)

/-- Claim C9: a failed address fetch (request construction, transport or
body read), an unparseable address body, or a failed record read ends the
cycle as failed with nothing submitted and the update counter untouched. -/
theorem spec_C9 (cfg : Config) (env : CycleEnv) (readFuel waitPolls : Nat)
    (h : env.fetch = .reqErr ∨ env.fetch = .doErr ∨ env.fetch = .readErr ∨
      (∃ body, env.fetch = .ok body ∧ goParseIP (trimSpace body) = none) ∨
      (∃ body x, env.fetch = .ok body ∧ goParseIP (trimSpace body) = some x ∧
        (getCurrentRecordValue env.list1 cfg.dnsName cfg.hostedZoneId readFuel).1 =
          .provErr)) :
    (updateRoute53 cfg env readFuel waitPolls).submitted = none ∧
    (updateRoute53 cfg env readFuel waitPolls).updatesInc = 0 ∧
    ((updateRoute53 cfg env readFuel waitPolls).result = .fetchFailed ∨
     (updateRoute53 cfg env readFuel waitPolls).result = .parseFailed ∨
     (updateRoute53 cfg env readFuel waitPolls).result = .readFailed) := by
  rcases h with h | h | h | ⟨body, hb, hp⟩ | ⟨body, x, hb, hp, hr⟩ <;>
    unfold updateRoute53
  · rw [h]; simp
  · rw [h]; simp
  · rw [h]; simp
  · rw [hb]; simp [hp]
  · rw [hb]; simp [hp, hr]

/-- Claim C9 witness: a transport failure of the address fetch yields a
failed cycle with no submission. -/
theorem spec_C9_witness :
    (updateRoute53 cfgEx envFetchErr 1 1).submitted = none ∧
    (updateRoute53 cfgEx envFetchErr 1 1).updatesInc = 0 ∧
    ((updateRoute53 cfgEx envFetchErr 1 1).result = .fetchFailed ∨
     (updateRoute53 cfgEx envFetchErr 1 1).result = .parseFailed ∨
     (updateRoute53 cfgEx envFetchErr 1 1).result = .readFailed) :=
  spec_C9 cfgEx envFetchErr 1 1 (Or.inr (Or.inl rfl))

/-- Claim C4: the update counter rises by one exactly when the cycle's
change submission succeeded, never by more; and a cycle whose observed
address and TTL already match the record is a pure no-op with a zero
increment, so repeating it leaves the counter unchanged. -/
theorem spec_C4 (cfg : Config) (env : CycleEnv) (readFuel waitPolls : Nat) :
    ((updateRoute53 cfg env readFuel waitPolls).updatesInc = 1 ↔
      ∃ input co, (updateRoute53 cfg env readFuel waitPolls).submitted = some input ∧
        env.change input = .ok co) ∧
    (updateRoute53 cfg env readFuel waitPolls).updatesInc ≤ 1 ∧
    (∀ body x v t, env.fetch = .ok body → goParseIP (trimSpace body) = some x →
      (getCurrentRecordValue env.list1 cfg.dnsName cfg.hostedZoneId readFuel).1 = .ok v t →
      v = trimSpace body → t = cfg.dnsTTL →
      updateRoute53 cfg env readFuel waitPolls = ⟨.noop, none, 0⟩) := by
  have main : ((updateRoute53 cfg env readFuel waitPolls).updatesInc = 1 ↔
      ∃ input co, (updateRoute53 cfg env readFuel waitPolls).submitted = some input ∧
        env.change input = .ok co) ∧
      (updateRoute53 cfg env readFuel waitPolls).updatesInc ≤ 1 := by
    cases hf : env.fetch with
    | reqErr => unfold updateRoute53; rw [hf]; simp
    | doErr => unfold updateRoute53; rw [hf]; simp
    | readErr => unfold updateRoute53; rw [hf]; simp
    | ok body =>
      unfold updateRoute53
      rw [hf]
      cases hp : goParseIP (trimSpace body) with
      | none => simp [hp]
      | some x =>
        simp only [hp]
        cases hr : (getCurrentRecordValue env.list1 cfg.dnsName cfg.hostedZoneId readFuel).1 with
        | provErr => simp
        | panicked => simp
        | fuelOut => simp
        | ok v t =>
          dsimp only
          by_cases hc : v = trimSpace body ∧ t = cfg.dnsTTL
          · rw [if_pos hc]; simp
          · rw [if_neg hc]
            have h1 := (submitAndTrack_submitted cfg env readFuel waitPolls
              (mkChangeInput cfg.dnsName cfg.hostedZoneId cfg.dnsTTL (trimSpace body))).1
            have h2 := submitAndTrack_inc cfg env readFuel waitPolls
              (mkChangeInput cfg.dnsName cfg.hostedZoneId cfg.dnsTTL (trimSpace body))
            refine ⟨?_, h2.2⟩
            rw [h1]
            constructor
            · intro hi
              rcases h2.1.mp hi with ⟨co, hco⟩
              exact ⟨_, co, rfl, hco⟩
            · rintro ⟨input, co, hsome, hco⟩
              rw [Option.some_inj] at hsome
              subst hsome
              exact h2.1.mpr ⟨co, hco⟩
  refine ⟨main.1, main.2, ?_⟩
  intro body x v t hfetch hparse hread hv ht
  unfold updateRoute53
  rw [hfetch]
  simp only [hparse, hread]
  rw [if_pos ⟨hv, ht⟩]

/-- Claim C4 witness: the unchanged-state cycle is a no-op with a zero
counter increment at a concrete environment. -/
theorem spec_C4_witness :
    updateRoute53 cfgEx (envEx "1.2.3.4\n") 1 1 =
      ⟨.noop, none, 0⟩ :=
  (spec_C4 cfgEx (envEx "1.2.3.4\n") 1 1).2.2 "1.2.3.4\n".toList
    [0, 0, 0, 0, 0, 0, 0, 0, 0, 0, 255, 255, 1, 2, 3, 4]
    "1.2.3.4".toList 300 rfl rfl rfl rfl rfl

end UpdateRoute53

namespace UpdateRoute53

/-- Helper: a page whose record sets all have a name and none of which
match the configured name and type yields no find result. -/
theorem findInPage_none (dnsName : GoString) :
    ∀ sets : List ResourceRecordSet,
    (∀ rs ∈ sets, ∃ nm, rs.Name = some nm ∧
      ¬(nm = dnsName ++ ['.'] ∧ rs.rrType = .A)) →
    findInPage dnsName sets = none := by
  intro sets
  induction sets with
  | nil => intro _; rfl
  | cons rs rest ih =>
      intro h
      obtain ⟨nm, hnm, hmatch⟩ := h rs (by simp)
      simp only [findInPage, hnm]
      rw [if_neg hmatch]
      exact ih (fun r hr => h r (by simp [hr]))

/-- Helper: the first matching record set of a page determines the find
result: its first record value and TTL when present. -/
theorem findInPage_found (dnsName : GoString)
    (post : List ResourceRecordSet) (m : ResourceRecordSet)
    (v : GoString) (t : Int) (rrest : List ResourceRecord)
    (hm : m.Name = some (dnsName ++ ['.'])) (hmt : m.rrType = .A)
    (hrr : m.ResourceRecords = { Value := some v } :: rrest)
    (httl : m.TTL = some t) :
    ∀ pre : List ResourceRecordSet,
    (∀ rs ∈ pre, ∃ nm, rs.Name = some nm ∧
      ¬(nm = dnsName ++ ['.'] ∧ rs.rrType = .A)) →
    findInPage dnsName (pre ++ m :: post) = some (.ok v (toUint64 t)) := by
  intro pre
  induction pre with
  | nil =>
      intro _
      simp only [List.nil_append, findInPage, hm]
      rw [if_pos ⟨trivial, hmt⟩]
      simp only [hrr, httl]
  | cons rs rest ih =>
      intro hpre
      obtain ⟨nm, hnm, hmatch⟩ := hpre rs (by simp)
      simp only [List.cons_append, findInPage, hnm]
      rw [if_neg hmatch]
      exact ih (fun r hr => hpre r (by simp [hr]))

/-- Helper: the first matching record set of a page with an empty record
list makes the find result a panic (index out of range). -/
theorem findInPage_panic (dnsName : GoString)
    (post : List ResourceRecordSet) (m : ResourceRecordSet)
    (hm : m.Name = some (dnsName ++ ['.'])) (hmt : m.rrType = .A)
    (hrr : m.ResourceRecords = []) :
    ∀ pre : List ResourceRecordSet,
    (∀ rs ∈ pre, ∃ nm, rs.Name = some nm ∧
      ¬(nm = dnsName ++ ['.'] ∧ rs.rrType = .A)) →
    findInPage dnsName (pre ++ m :: post) = some .panicked := by
  intro pre
  induction pre with
  | nil =>
      intro _
      simp only [List.nil_append, findInPage, hm]
      rw [if_pos ⟨trivial, hmt⟩]
      simp only [hrr]
  | cons rs rest ih =>
      intro hpre
      obtain ⟨nm, hnm, hmatch⟩ := hpre rs (by simp)
      simp only [List.cons_append, findInPage, hnm]
      rw [if_neg hmatch]
      exact ih (fun r hr => hpre r (by simp [hr]))

/-- Claim C6: a provider answer whose record sets contain no match for
the configured name and type, on a final (non-truncated) page, makes the
reader return the absent state ("", 0) without error in one call; and the
reconciler then submits unconditionally, because a validated observed
address is never the empty string. -/
theorem spec_C6 :
    (∀ (svc : ListInput → Except Unit ListOutput) (dnsName hostedZoneId : GoString)
       (out : ListOutput) (fuel : Nat),
      svc (initialListInput hostedZoneId) = .ok out →
      (∀ rs ∈ out.ResourceRecordSets, ∃ nm, rs.Name = some nm ∧
        ¬(nm = dnsName ++ ['.'] ∧ rs.rrType = .A)) →
      out.IsTruncated = false →
      getCurrentRecordValue svc dnsName hostedZoneId (fuel + 1) = (.ok [] 0, 1)) ∧
    (∀ (cfg : Config) (env : CycleEnv) (readFuel waitPolls : Nat)
       (body : GoString) (x : List Nat) (out : ListOutput),
      env.fetch = .ok body → goParseIP (trimSpace body) = some x →
      env.list1 (initialListInput cfg.hostedZoneId) = .ok out →
      (∀ rs ∈ out.ResourceRecordSets, ∃ nm, rs.Name = some nm ∧
        ¬(nm = cfg.dnsName ++ ['.'] ∧ rs.rrType = .A)) →
      out.IsTruncated = false →
      (updateRoute53 cfg env (readFuel + 1) waitPolls).submitted ≠ none) := by
  have part1 : ∀ (svc : ListInput → Except Unit ListOutput)
      (dnsName hostedZoneId : GoString) (out : ListOutput) (fuel : Nat),
      svc (initialListInput hostedZoneId) = .ok out →
      (∀ rs ∈ out.ResourceRecordSets, ∃ nm, rs.Name = some nm ∧
        ¬(nm = dnsName ++ ['.'] ∧ rs.rrType = .A)) →
      out.IsTruncated = false →
      getCurrentRecordValue svc dnsName hostedZoneId (fuel + 1) = (.ok [] 0, 1) := by
    intro svc dnsName hostedZoneId out fuel hsvc hno htr
    unfold getCurrentRecordValue getCurrentRecordValueLoop
    rw [hsvc]
    simp only [findInPage_none dnsName out.ResourceRecordSets hno, htr]
    simp
  refine ⟨part1, ?_⟩
  intro cfg env readFuel waitPolls body x out hfetch hparse hsvc hno htr
  have hread := part1 env.list1 cfg.dnsName cfg.hostedZoneId out readFuel hsvc hno htr
  have hne : trimSpace body ≠ [] := by
    intro h
    rw [h] at hparse
    simp [goParseIP, findSpecial] at hparse
  unfold updateRoute53
  rw [hfetch]
  simp only [hparse]
  rw [show (getCurrentRecordValue env.list1 cfg.dnsName cfg.hostedZoneId (readFuel + 1)).1 =
    GetRecordResult.ok [] 0 from by rw [hread]]
  dsimp only
  rw [if_neg (by intro hc; exact hne hc.1.symm)]
  have h1 := (submitAndTrack_submitted cfg env (readFuel + 1) waitPolls
    (mkChangeInput cfg.dnsName cfg.hostedZoneId cfg.dnsTTL (trimSpace body))).1
  rw [h1]
  simp

/-- Claim C6 witness: the empty non-truncated result set yields the
absent state in one call, and the absent-record cycle submits an upsert. -/
theorem spec_C6_witness :
    getCurrentRecordValue (fun _ => .ok emptyPageEx) "home.example.com".toList
      "ZXXXXXXXXX".toList 1 = (.ok [] 0, 1) ∧
    (updateRoute53 cfgEx envAbsent 1 1).submitted ≠ none :=
  ⟨spec_C6.1 (fun _ => .ok emptyPageEx) "home.example.com".toList
      "ZXXXXXXXXX".toList emptyPageEx 0 rfl (by simp [emptyPageEx]) rfl,
   spec_C6.2 cfgEx envAbsent 0 1 "1.2.3.4\n".toList
      [0, 0, 0, 0, 0, 0, 0, 0, 0, 0, 255, 255, 1, 2, 3, 4] emptyPageEx
      rfl rfl rfl (by simp [emptyPageEx]) rfl⟩

/-- Claim C3: a first page with no match but the truncation flag set
makes the reader issue a second request built from the returned
continuation markers; with the match on that second page it performs
exactly two provider calls and returns the second page's record value
and TTL. -/
theorem spec_C3 (svc : ListInput → Except Unit ListOutput)
    (dnsName hostedZoneId : GoString) (page1 page2 : ListOutput)
    (pre post : List ResourceRecordSet) (m : ResourceRecordSet)
    (v : GoString) (t : Int) (rrest : List ResourceRecord) (fuel : Nat)
    (h1 : svc (initialListInput hostedZoneId) = .ok page1)
    (hno : ∀ rs ∈ page1.ResourceRecordSets, ∃ nm, rs.Name = some nm ∧
      ¬(nm = dnsName ++ ['.'] ∧ rs.rrType = .A))
    (htr : page1.IsTruncated = true)
    (h2 : svc { initialListInput hostedZoneId with
        StartRecordName := page1.NextRecordName,
        StartRecordType := page1.NextRecordType,
        StartRecordIdentifier := page1.NextRecordIdentifier } = .ok page2)
    (hsets : page2.ResourceRecordSets = pre ++ m :: post)
    (hpre : ∀ rs ∈ pre, ∃ nm, rs.Name = some nm ∧
      ¬(nm = dnsName ++ ['.'] ∧ rs.rrType = .A))
    (hm : m.Name = some (dnsName ++ ['.'])) (hmt : m.rrType = .A)
    (hrr : m.ResourceRecords = { Value := some v } :: rrest)
    (httl : m.TTL = some t) :
    getCurrentRecordValue svc dnsName hostedZoneId (fuel + 2) =
      (.ok v (toUint64 t), 2) := by
  unfold getCurrentRecordValue
  rw [show fuel + 2 = (fuel + 1) + 1 from rfl]
  rw [getCurrentRecordValueLoop]
  rw [h1]
  dsimp only
  rw [findInPage_none dnsName page1.ResourceRecordSets hno, htr]
  dsimp only
  rw [if_pos rfl]
  rw [getCurrentRecordValueLoop]
  rw [h2]
  dsimp only
  rw [hsets]
  rw [findInPage_found dnsName post m v t rrest hm hmt hrr httl pre hpre]

/-- Claim C3 witness: the two-page provider is called exactly twice and
the second page's record 5.6.7.8 at TTL 60 is returned. -/
theorem spec_C3_witness :
    getCurrentRecordValue svcTwoPage "home.example.com".toList
      "ZXXXXXXXXX".toList 2 = (.ok "5.6.7.8".toList 60, 2) :=
  spec_C3 svcTwoPage "home.example.com".toList "ZXXXXXXXXX".toList
    page1Ex page2Ex [] []
    { Name := some "home.example.com.".toList, rrType := .A, TTL := some 60,
      ResourceRecords := [{ Value := some "5.6.7.8".toList }] }
    "5.6.7.8".toList 60 [] 0
    rfl (by simp [page1Ex]) rfl rfl rfl (by simp) (by decide) rfl rfl rfl

/-- Helper: a page all of whose record sets are safely shaped never
yields a panic as find result. -/
theorem findInPage_no_panic (dnsName : GoString) :
    ∀ sets : List ResourceRecordSet,
    (∀ rs ∈ sets, rs.Name ≠ none ∧
      ∀ nm, rs.Name = some nm → nm = dnsName ++ ['.'] → rs.rrType = .A →
        (∃ r rrest, rs.ResourceRecords = r :: rrest ∧ r.Value ≠ none) ∧
          rs.TTL ≠ none) →
    findInPage dnsName sets ≠ some .panicked := by
  intro sets
  induction sets with
  | nil => intro _ h; simp [findInPage] at h
  | cons rs rest ih =>
      intro h
      obtain ⟨hname, hsafe⟩ := h rs (by simp)
      cases hnm : rs.Name with
      | none => exact absurd hnm hname
      | some nm =>
        by_cases hmatch : nm = dnsName ++ ['.'] ∧ rs.rrType = .A
        · obtain ⟨⟨r, rrest, hrr, hv⟩, httl⟩ := hsafe nm hnm hmatch.1 hmatch.2
          cases hv' : r.Value with
          | none => exact absurd hv' hv
          | some v =>
            cases httl' : rs.TTL with
            | none => exact absurd httl' httl
            | some t =>
              simp only [findInPage, hnm]
              rw [if_pos hmatch]
              simp [hrr, hv', httl']
        · simp only [findInPage, hnm]
          rw [if_neg hmatch]
          exact ih (fun r hr => h r (by simp [hr]))

/-- Claim C10: the reader dereferences the first record value and the TTL
of the first matching record set without guarding, so a matching set with
an empty value list makes the lookup panic; and it never panics when every
record set has a name and every matching set carries at least one valued
record and a TTL. -/
theorem spec_C10 :
    (∀ (svc : ListInput → Except Unit ListOutput) (dnsName hostedZoneId : GoString)
       (out : ListOutput) (fuel : Nat) (pre post : List ResourceRecordSet)
       (m : ResourceRecordSet),
      svc (initialListInput hostedZoneId) = .ok out →
      out.ResourceRecordSets = pre ++ m :: post →
      (∀ rs ∈ pre, ∃ nm, rs.Name = some nm ∧
        ¬(nm = dnsName ++ ['.'] ∧ rs.rrType = .A)) →
      m.Name = some (dnsName ++ ['.']) → m.rrType = .A →
      m.ResourceRecords = [] →
      getCurrentRecordValue svc dnsName hostedZoneId (fuel + 1) = (.panicked, 1)) ∧
    (∀ (svc : ListInput → Except Unit ListOutput) (dnsName : GoString),
      (∀ inp out, svc inp = .ok out → ∀ rs ∈ out.ResourceRecordSets,
        rs.Name ≠ none ∧
        ∀ nm, rs.Name = some nm → nm = dnsName ++ ['.'] → rs.rrType = .A →
          (∃ r rrest, rs.ResourceRecords = r :: rrest ∧ r.Value ≠ none) ∧
            rs.TTL ≠ none) →
      ∀ (inp : ListInput) (fuel : Nat),
        (getCurrentRecordValueLoop svc dnsName inp fuel).1 ≠ .panicked) := by
  constructor
  · intro svc dnsName hostedZoneId out fuel pre post m hsvc hsets hpre hm hmt hrr
    unfold getCurrentRecordValue
    rw [getCurrentRecordValueLoop]
    rw [hsvc]
    dsimp only
    rw [hsets]
    rw [findInPage_panic dnsName post m hm hmt hrr pre hpre]
  · intro svc dnsName hsafe inp fuel
    induction fuel generalizing inp with
    | zero => simp [getCurrentRecordValueLoop]
    | succ fuel ih =>
        rw [getCurrentRecordValueLoop]
        cases hsvc : svc inp with
        | error e => simp
        | ok out =>
          dsimp only
          cases hfp : findInPage dnsName out.ResourceRecordSets with
          | some r =>
              have hne := findInPage_no_panic dnsName out.ResourceRecordSets
                (hsafe inp out hsvc)
              rw [hfp] at hne
              dsimp only
              simpa using hne
          | none =>
              by_cases htr : out.IsTruncated = true
              · rw [htr]
                dsimp only
                rw [if_pos rfl]
                dsimp only
                exact ih _
              · rw [eq_false_of_ne_true htr]
                dsimp only
                rw [if_neg (by simp)]
                simp

/-- Claim C10 witness: a matching record set with no values panics the
read, while the well-formed one-record provider never panics. -/
theorem spec_C10_witness :
    getCurrentRecordValue (fun _ => .ok pagePanicEx) "home.example.com".toList
      "ZXXXXXXXXX".toList 1 = (.panicked, 1) ∧
    (getCurrentRecordValueLoop (fun _ => .ok (pageEx "1.2.3.4" 300))
      "home.example.com".toList
      (initialListInput "ZXXXXXXXXX".toList) 1).1 ≠ .panicked := by
  constructor
  · exact spec_C10.1 (fun _ => .ok pagePanicEx) "home.example.com".toList
      "ZXXXXXXXXX".toList pagePanicEx 0 [] []
      { Name := some "home.example.com.".toList, rrType := .A, TTL := some 300,
        ResourceRecords := [] }
      rfl rfl (by simp) (by decide) rfl rfl
  · refine spec_C10.2 (fun _ => .ok (pageEx "1.2.3.4" 300))
      "home.example.com".toList ?_ (initialListInput "ZXXXXXXXXX".toList) 1
    intro inp out h rs hrs
    have hout : pageEx "1.2.3.4" 300 = out := by
      injection h
    subst hout
    simp only [pageEx, List.mem_singleton] at hrs
    subst hrs
    refine ⟨by simp, ?_⟩
    intro nm hnm h1 h2
    exact ⟨⟨{ Value := some "1.2.3.4".toList }, [], rfl, by simp⟩, by simp⟩

end UpdateRoute53

namespace UpdateRoute53

/-- Helper: equation of foldval on the empty string. -/
theorem foldval_nil (v : Nat) : foldval v [] = v := rfl

/-- Helper: equation of foldval on a leading character. -/
theorem foldval_cons (v : Nat) (c : Char) (ds : GoString) :
    foldval v (c :: ds) = foldval (v * 10 + (c.toNat - 48)) ds := rfl

/-- Helper: digitsVal starts foldval from zero. -/
theorem digitsVal_def (ds : GoString) : digitsVal ds = foldval 0 ds := rfl

/-- Helper: bounds of a digit character's code point. -/
theorem isDigit_toNat {c : Char} (h : c.isDigit = true) :
    48 ≤ c.toNat ∧ c.toNat ≤ 57 := by
  simp [Char.isDigit] at h
  exact h

/-- Helper: the decimal digit characters are digits. -/
theorem digitChar_isDigit {k : Nat} (hk : k < 10) :
    (digitChar k).isDigit = true := by
  interval_cases k <;> decide

/-- Helper: code point of a decimal digit character. -/
theorem digitChar_toNat {k : Nat} (hk : k < 10) :
    (digitChar k).toNat = 48 + k := by
  interval_cases k <;> decide

/-- Helper: a digit character equals the rendering of its value. -/
theorem digitChar_of_isDigit {c : Char} (h : c.isDigit = true) :
    digitChar (c.toNat - 48) = c := by
  obtain ⟨h1, h2⟩ := isDigit_toNat h
  have hval : (digitChar (c.toNat - 48)).toNat = c.toNat := by
    rw [digitChar_toNat (by omega)]
    omega
  exact Char.eq_of_val_eq (UInt32.ext hval)

/-- Helper: the fuel argument of natDigitsAux is irrelevant above the
number. -/
theorem natDigitsAux_fuel : ∀ n f f', n < f → n < f' →
    natDigitsAux f n = natDigitsAux f' n := by
  intro n
  induction n using Nat.strong_induction_on with
  | _ n ih =>
    intro f f' hf hf'
    match f, hf, f', hf' with
    | f + 1, hf, f' + 1, hf' =>
      simp only [natDigitsAux]
      by_cases h10 : n < 10
      · simp [h10]
      · rw [if_neg h10, if_neg h10]
        have hd : n / 10 < n := Nat.div_lt_self (by omega) (by omega)
        rw [ih (n / 10) hd f f' (by omega) (by omega)]

/-- Helper: the recursion equation of natDigits. -/
theorem natDigits_eq (n : Nat) :
    natDigits n = if n < 10 then [digitChar n]
      else natDigits (n / 10) ++ [digitChar (n % 10)] := by
  have h : natDigitsAux (n + 1) n = if n < 10 then [digitChar n]
      else natDigitsAux n (n / 10) ++ [digitChar (n % 10)] := by
    simp only [natDigitsAux]
  unfold natDigits
  rw [h]
  by_cases h10 : n < 10
  · simp [h10]
  · rw [if_neg h10, if_neg h10]
    rw [natDigitsAux_fuel (n / 10) n (n / 10 + 1)
      (Nat.div_lt_self (by omega) (by omega)) (by omega)]

/-- Helper: decimal renderings are never empty. -/
theorem natDigits_ne_nil (n : Nat) : natDigits n ≠ [] := by
  rw [natDigits_eq]
  by_cases h10 : n < 10
  · simp [h10]
  · simp [h10]

/-- Helper: decimal renderings consist of digit characters. -/
theorem natDigits_all_digit : ∀ n, ∀ c ∈ natDigits n, c.isDigit = true := by
  intro n
  induction n using Nat.strong_induction_on with
  | _ n ih =>
    intro c hc
    rw [natDigits_eq] at hc
    by_cases h10 : n < 10
    · rw [if_pos h10] at hc
      simp at hc
      subst hc
      exact digitChar_isDigit h10
    · rw [if_neg h10] at hc
      rcases List.mem_append.mp hc with hc | hc
      · exact ih (n / 10) (Nat.div_lt_self (by omega) (by omega)) c hc
      · simp at hc
        subst hc
        exact digitChar_isDigit (Nat.mod_lt n (by omega))

/-- Helper: the rendering of a positive number never starts with the zero
digit. -/
theorem natDigits_head_ne_zero : ∀ m, 1 ≤ m → ∀ x xs,
    natDigits m = x :: xs → x ≠ '0' := by
  intro m
  induction m using Nat.strong_induction_on with
  | _ m ihm =>
    intro hm x xs hnd hx
    by_cases hm10 : m < 10
    · rw [natDigits_eq, if_pos hm10] at hnd
      have h2 := hnd.symm
      simp at h2
      have ht := digitChar_toNat (k := m) hm10
      rw [← h2.1, hx] at ht
      simp at ht
      omega
    · rw [natDigits_eq, if_neg hm10] at hnd
      cases hnd10 : natDigits (m / 10) with
      | nil => exact absurd hnd10 (natDigits_ne_nil _)
      | cons y ys =>
        rw [hnd10] at hnd
        simp at hnd
        refine ihm (m / 10) (Nat.div_lt_self (by omega) (by omega))
          (Nat.one_le_div_iff (by omega) |>.mpr (by omega)) x ys ?_ hx
        rw [hnd10, hnd.1]

/-- Helper: decimal renderings have no leading zero. -/
theorem natDigits_noLeadZero (n : Nat) : noLeadZero (natDigits n) := by
  intro rest h
  by_cases h10 : n < 10
  · rw [natDigits_eq, if_pos h10] at h
    have h2 := h.symm
    simp at h2
    exact h2.2
  · exfalso
    exact natDigits_head_ne_zero n (by omega) '0' rest h rfl

/-- Helper: value of a digit string extended by one digit. -/
theorem foldval_append (c : Char) : ∀ (ds : GoString) (v : Nat),
    foldval v (ds ++ [c]) = (foldval v ds) * 10 + (c.toNat - 48) := by
  intro ds
  induction ds with
  | nil => intro v; rfl
  | cons d ds ih =>
      intro v
      rw [List.cons_append, foldval_cons, foldval_cons]
      exact ih _

/-- Helper: the decimal rendering evaluates back to the number. -/
theorem digitsVal_natDigits : ∀ n, digitsVal (natDigits n) = n := by
  intro n
  induction n using Nat.strong_induction_on with
  | _ n ih =>
    by_cases h10 : n < 10
    · rw [natDigits_eq, if_pos h10, digitsVal_def, foldval_cons, foldval_nil,
        digitChar_toNat h10]
      omega
    · rw [natDigits_eq, if_neg h10, digitsVal_def, foldval_append,
        digitChar_toNat (show n % 10 < 10 from Nat.mod_lt n (by omega))]
      have hv := ih (n / 10) (Nat.div_lt_self (by omega) (by omega))
      rw [digitsVal_def] at hv
      rw [hv]
      omega

end UpdateRoute53

namespace UpdateRoute53

/-- Helper: equation of the parser on the empty string. -/
theorem ipv4Fields_nil (val digLen pos : Nat) (fields : List Nat) :
    ipv4Fields [] val digLen pos fields =
      if pos < 3 then none else some (fields ++ [val]) := rfl

/-- Helper: equation of the parser on a leading character. -/
theorem ipv4Fields_cons (c : Char) (rest : GoString) (val digLen pos : Nat)
    (fields : List Nat) :
    ipv4Fields (c :: rest) val digLen pos fields =
      if c.isDigit then
        if digLen = 1 ∧ val = 0 then none
        else if 255 < val * 10 + (c.toNat - 48) then none
        else ipv4Fields rest (val * 10 + (c.toNat - 48)) (digLen + 1) pos fields
      else if c = '.' then
        if digLen = 0 ∨ rest = [] then none
        else if pos = 3 then none
        else ipv4Fields rest 0 0 (pos + 1) (fields ++ [val])
      else none := rfl

/-- Helper: the accumulator never decreases. -/
theorem foldval_le : ∀ (ds : GoString) (v : Nat), v ≤ foldval v ds := by
  intro ds
  induction ds with
  | nil => intro v; exact Nat.le_refl v
  | cons c ds ih =>
      intro v
      rw [foldval_cons]
      calc v ≤ v * 10 + (c.toNat - 48) := by omega
        _ ≤ foldval (v * 10 + (c.toNat - 48)) ds := ih _

/-- Helper: consuming digits from a mid-octet state advances the
accumulator to the digits' combined value. -/
theorem ipv4Fields_consume_aux : ∀ (ds : GoString) (v ℓ : Nat),
    (∀ c ∈ ds, c.isDigit = true) → 1 ≤ ℓ → ¬(v = 0 ∧ ℓ = 1 ∧ ds ≠ []) →
    foldval v ds ≤ 255 → ∀ (t : GoString) (pos : Nat) (fields : List Nat),
    ipv4Fields (ds ++ t) v ℓ pos fields =
      ipv4Fields t (foldval v ds) (ℓ + ds.length) pos fields := by
  intro ds
  induction ds with
  | nil =>
      intro v ℓ _ _ _ _ t pos fields
      rw [foldval_nil]
      simp
  | cons c ds ih =>
      intro v ℓ hdig hℓ hlz hval t pos fields
      have hcd : c.isDigit = true := hdig c (by simp)
      rw [List.cons_append, ipv4Fields_cons, if_pos hcd]
      rw [if_neg (by rintro ⟨he1, he2⟩; exact hlz ⟨he2, he1, by simp⟩)]
      rw [foldval_cons] at hval
      have hbound := foldval_le ds (v * 10 + (c.toNat - 48))
      rw [if_neg (by omega)]
      rw [ih (v * 10 + (c.toNat - 48)) (ℓ + 1) (fun x hx => hdig x (by simp [hx]))
        (by omega) (by rintro ⟨_, he, _⟩; omega) hval t pos fields]
      rw [foldval_cons]
      congr 1
      simp [List.length_cons]
      omega

/-- Helper: consuming a full canonical octet from the start of a field
advances the parser past it. -/
theorem ipv4Fields_consume : ∀ (ds : GoString),
    (∀ c ∈ ds, c.isDigit = true) → ds ≠ [] → noLeadZero ds →
    digitsVal ds ≤ 255 → ∀ (t : GoString) (pos : Nat) (fields : List Nat),
    ipv4Fields (ds ++ t) 0 0 pos fields =
      ipv4Fields t (digitsVal ds) ds.length pos fields := by
  intro ds hdig hne hlz hval t pos fields
  match ds, hne with
  | c :: ds', _ =>
    have hcd : c.isDigit = true := hdig c (by simp)
    rw [List.cons_append, ipv4Fields_cons, if_pos hcd]
    rw [if_neg (by omega)]
    rw [digitsVal_def, foldval_cons] at hval
    have hbound := foldval_le ds' (0 * 10 + (c.toNat - 48))
    rw [if_neg (by omega)]
    rcases hds' : ds' with _ | ⟨d, ds''⟩
    · rw [digitsVal_def, foldval_cons, foldval_nil]
      simp
    · rw [← hds']
      have hds'ne : ds' ≠ [] := by rw [hds']; simp
      rw [ipv4Fields_consume_aux ds' (0 * 10 + (c.toNat - 48)) 1
        (fun x hx => hdig x (by simp [hx])) (by omega) ?_ hval t pos fields]
      · rw [digitsVal_def, foldval_cons]
        congr 1
        simp [List.length_cons]
        omega
      · rintro ⟨he, _, _⟩
        have hc0 : c = '0' := by
          have := digitChar_of_isDigit hcd
          rw [show c.toNat - 48 = 0 by omega] at this
          rw [← this]
          rfl
        exact hds'ne (hlz ds' (by rw [hc0]))

/-- Helper: a dot moves the parser to the next field when the current
field is nonempty, more input follows, and three fields are not yet
complete. -/
theorem ipv4Fields_dot (r : GoString) (v ℓ pos : Nat) (fields : List Nat)
    (hℓ : 1 ≤ ℓ) (hr : r ≠ []) (hpos : pos ≠ 3) :
    ipv4Fields ('.' :: r) v ℓ pos fields =
      ipv4Fields r 0 0 (pos + 1) (fields ++ [v]) := by
  rw [ipv4Fields_cons]
  rw [if_neg (by decide), if_pos rfl]
  rw [if_neg (by push_neg; exact ⟨by omega, hr⟩)]
  rw [if_neg hpos]

/-- Helper: the end of input after the third dot closes the fourth octet. -/
theorem ipv4Fields_end (v ℓ : Nat) (fields : List Nat) :
    ipv4Fields [] v ℓ 3 fields = some (fields ++ [v]) := by
  rw [ipv4Fields_nil]
  simp

/-- Helper: the parser accepts every canonical dotted quad and returns
its four octets. -/
theorem ipv4Fields_quad (a b c d : Nat) (ha : a ≤ 255) (hb : b ≤ 255)
    (hc : c ≤ 255) (hd : d ≤ 255) :
    ipv4Fields (quadStr a b c d) 0 0 0 [] = some [a, b, c, d] := by
  have hlen : ∀ n : Nat, 1 ≤ (natDigits n).length := by
    intro n
    cases hnd : natDigits n with
    | nil => exact absurd hnd (natDigits_ne_nil n)
    | cons x xs => simp
  have hcons : ∀ (n : Nat) (t : GoString) (pos : Nat) (fields : List Nat),
      n ≤ 255 →
      ipv4Fields (natDigits n ++ t) 0 0 pos fields =
        ipv4Fields t n (natDigits n).length pos fields := by
    intro n t pos fields hn
    rw [ipv4Fields_consume (natDigits n) (natDigits_all_digit n)
      (natDigits_ne_nil n) (natDigits_noLeadZero n)
      (by rw [digitsVal_natDigits]; exact hn) t pos fields]
    rw [digitsVal_natDigits]
  unfold quadStr
  rw [hcons a _ 0 [] ha]
  rw [ipv4Fields_dot _ _ _ _ _ (hlen a) (by simp [natDigits_ne_nil b]) (by omega)]
  rw [hcons b _ 1 _ hb]
  rw [ipv4Fields_dot _ _ _ _ _ (hlen b) (by simp [natDigits_ne_nil c]) (by omega)]
  rw [hcons c _ 2 _ hc]
  rw [ipv4Fields_dot _ _ _ _ _ (hlen c) (natDigits_ne_nil d) (by omega)]
  rw [show (natDigits d : GoString) = natDigits d ++ [] by simp]
  rw [hcons d [] 3 _ hd]
  rw [ipv4Fields_end]
  simp

end UpdateRoute53

namespace UpdateRoute53

/-- Helper: a digit character with code point 48 is the zero digit. -/
theorem eq_zero_char {c : Char} (h : c.isDigit = true) (h48 : c.toNat = 48) :
    c = '0' := by
  have := digitChar_of_isDigit h
  rw [show c.toNat - 48 = 0 by omega] at this
  rw [← this]
  rfl

/-- Helper: inversion of an accepting parser run: the input splits into a
maximal digit prefix completing the current octet and either ends the
string on the final field or continues with a dot into the next field. -/
theorem ipv4Fields_sound_aux : ∀ (s : GoString) (v ℓ : Nat), v ≤ 255 →
    ∀ (pos : Nat) (fields out : List Nat),
    ipv4Fields s v ℓ pos fields = some out →
    ∃ ds t, s = ds ++ t ∧ (∀ c ∈ ds, c.isDigit = true) ∧
      foldval v ds ≤ 255 ∧
      (v = 0 → (ℓ = 1 → ds = []) ∧ (ℓ = 0 → noLeadZero ds)) ∧
      ((t = [] ∧ ¬pos < 3 ∧ out = fields ++ [foldval v ds]) ∨
       (∃ r, t = '.' :: r ∧ r ≠ [] ∧ 1 ≤ ℓ + ds.length ∧ pos ≠ 3 ∧
         ipv4Fields r 0 0 (pos + 1) (fields ++ [foldval v ds]) = some out)) := by
  intro s
  induction s with
  | nil =>
      intro v ℓ hv pos fields out hparse
      rw [ipv4Fields_nil] at hparse
      by_cases hpos : pos < 3
      · rw [if_pos hpos] at hparse
        exact absurd hparse (by simp)
      · rw [if_neg hpos] at hparse
        refine ⟨[], [], by simp, by simp, by rw [foldval_nil]; exact hv,
          fun _ => ⟨fun _ => rfl, fun _ rest hcon => by cases hcon⟩,
          Or.inl ⟨rfl, hpos, ?_⟩⟩
        rw [foldval_nil]
        exact (Option.some_inj.mp hparse).symm
  | cons c s' ih =>
      intro v ℓ hv pos fields out hparse
      rw [ipv4Fields_cons] at hparse
      by_cases hcd : c.isDigit = true
      · rw [if_pos hcd] at hparse
        by_cases hlzc : ℓ = 1 ∧ v = 0
        · rw [if_pos ⟨hlzc.1, hlzc.2⟩] at hparse
          exact absurd hparse (by simp)
        · rw [if_neg hlzc] at hparse
          by_cases hov : 255 < v * 10 + (c.toNat - 48)
          · rw [if_pos hov] at hparse
            exact absurd hparse (by simp)
          · rw [if_neg hov] at hparse
            obtain ⟨ds', t, hs, hdig, hfv, hcanon, hdisj⟩ :=
              ih (v * 10 + (c.toNat - 48)) (ℓ + 1) (by omega) pos fields out hparse
            refine ⟨c :: ds', t, by rw [hs, List.cons_append], ?_, ?_, ?_, ?_⟩
            · intro x hx
              rcases List.mem_cons.mp hx with hx | hx
              · rw [hx]; exact hcd
              · exact hdig x hx
            · rw [foldval_cons]; exact hfv
            · intro hv0
              refine ⟨fun hℓ1 => absurd ⟨hℓ1, hv0⟩ hlzc, fun hℓ0 => ?_⟩
              intro rest hcon
              have hc0 : c = '0' ∧ ds' = rest := by
                have h1 := List.head_eq_of_cons_eq hcon
                have h2 := List.tail_eq_of_cons_eq hcon
                exact ⟨h1, h2⟩
              have hvz : v * 10 + (c.toNat - 48) = 0 := by
                rw [hv0, hc0.1]
                decide
              have := (hcanon hvz).1 (by omega)
              rw [← hc0.2, this]
            · rcases hdisj with ⟨ht, hp, ho⟩ | ⟨r, ht, hr, hlen, hp, hcont⟩
              · exact Or.inl ⟨ht, hp, by rw [foldval_cons]; exact ho⟩
              · refine Or.inr ⟨r, ht, hr, ?_, hp, by rw [foldval_cons]; exact hcont⟩
                simp only [List.length_cons]
                omega
      · rw [if_neg hcd] at hparse
        by_cases hdot : c = '.'
        · rw [if_pos hdot] at hparse
          by_cases h1 : ℓ = 0 ∨ s' = []
          · rw [if_pos h1] at hparse
            exact absurd hparse (by simp)
          · rw [if_neg h1] at hparse
            push_neg at h1
            by_cases hp3 : pos = 3
            · rw [if_pos hp3] at hparse
              exact absurd hparse (by simp)
            · rw [if_neg hp3] at hparse
              subst hdot
              refine ⟨[], '.' :: s', by simp, by simp,
                by rw [foldval_nil]; exact hv,
                fun _ => ⟨fun _ => rfl, fun _ rest hcon => by cases hcon⟩,
                Or.inr ⟨s', rfl, h1.2, by omega, hp3, ?_⟩⟩
              rw [foldval_nil]
              exact hparse
        · rw [if_neg hdot] at hparse
          exact absurd hparse (by simp)

end UpdateRoute53

namespace UpdateRoute53

/-- Helper: a nonempty canonical digit string is the rendering of its
value. -/
theorem natDigits_digitsVal : ∀ (ds : GoString),
    (∀ c ∈ ds, c.isDigit = true) → ds ≠ [] → noLeadZero ds →
    natDigits (digitsVal ds) = ds := by
  intro ds
  induction ds using List.reverseRecOn with
  | nil => intro _ hne _; exact absurd rfl hne
  | append_singleton ds' c ih =>
      intro hdig hne hlz
      have hcd : c.isDigit = true := hdig c (by simp)
      have he : c.toNat - 48 ≤ 9 := by
        have := isDigit_toNat hcd
        omega
      rw [digitsVal_def, foldval_append, ← digitsVal_def]
      rcases hds' : ds' with _ | ⟨d, ds''⟩
      · simp only [digitsVal_def, foldval_nil]
        rw [natDigits_eq, if_pos (by omega : 0 * 10 + (c.toNat - 48) < 10)]
        rw [show 0 * 10 + (c.toNat - 48) = c.toNat - 48 by omega]
        rw [digitChar_of_isDigit hcd]
        simp
      · rw [← hds']
        have hne' : ds' ≠ [] := by rw [hds']; simp
        have hnolz' : ∀ rest, ds' = '0' :: rest → False := by
          intro rest h0
          have : ds' ++ [c] = '0' :: (rest ++ [c]) := by rw [h0]; simp
          have := hlz (rest ++ [c]) this
          simp at this
        have hheadpos : 1 ≤ digitsVal ds' := by
          rw [hds']
          have hdd : d.isDigit = true := by
            apply hdig
            rw [hds']
            simp
          have hd48 : 48 ≤ d.toNat ∧ d.toNat ≤ 57 := isDigit_toNat hdd
          have hdne : d ≠ '0' := by
            intro h0
            exact hnolz' ds'' (by rw [hds', h0])
          have hd49 : 49 ≤ d.toNat := by
            rcases Nat.lt_or_ge d.toNat 49 with hlt | hge
            · exfalso
              exact hdne (eq_zero_char hdd (by omega))
            · exact hge
          rw [digitsVal_def, foldval_cons]
          calc 1 ≤ 0 * 10 + (d.toNat - 48) := by omega
            _ ≤ foldval (0 * 10 + (d.toNat - 48)) ds'' := foldval_le _ _
      -- the combined value is at least ten, so the rendering recurses
        have hn10 : ¬ digitsVal ds' * 10 + (c.toNat - 48) < 10 := by omega
        rw [natDigits_eq, if_neg hn10]
        have hdiv : (digitsVal ds' * 10 + (c.toNat - 48)) / 10 = digitsVal ds' := by
          omega
        have hmod : (digitsVal ds' * 10 + (c.toNat - 48)) % 10 = c.toNat - 48 := by
          omega
        rw [hdiv, hmod]
        rw [ih (fun x hx => hdig x (by simp [hx])) hne'
          (fun rest h0 => absurd h0 (fun h0 => hnolz' rest h0))]
        rw [digitChar_of_isDigit hcd]

end UpdateRoute53

namespace UpdateRoute53

/-- Helper: an accepting run of the full parser exhibits the input as a
canonical dotted quad and the output as its four octets. -/
theorem ipv4Fields_sound (s : GoString) (out : List Nat)
    (h : ipv4Fields s 0 0 0 [] = some out) :
    ∃ a b c d, a ≤ 255 ∧ b ≤ 255 ∧ c ≤ 255 ∧ d ≤ 255 ∧
      s = quadStr a b c d ∧ out = [a, b, c, d] := by
  obtain ⟨ds1, t1, hs1, hdig1, hfv1, hcanon1, hdisj1⟩ :=
    ipv4Fields_sound_aux s 0 0 (by omega) 0 [] out h
  rcases hdisj1 with ⟨_, hp, _⟩ | ⟨r1, ht1, hr1, hlen1, _, hcont1⟩
  · exact absurd (by omega) hp
  obtain ⟨ds2, t2, hs2, hdig2, hfv2, hcanon2, hdisj2⟩ :=
    ipv4Fields_sound_aux r1 0 0 (by omega) 1 ([] ++ [foldval 0 ds1]) out hcont1
  rcases hdisj2 with ⟨_, hp, _⟩ | ⟨r2, ht2, hr2, hlen2, _, hcont2⟩
  · exact absurd (by omega) hp
  obtain ⟨ds3, t3, hs3, hdig3, hfv3, hcanon3, hdisj3⟩ :=
    ipv4Fields_sound_aux r2 0 0 (by omega) 2
      ([] ++ [foldval 0 ds1] ++ [foldval 0 ds2]) out hcont2
  rcases hdisj3 with ⟨_, hp, _⟩ | ⟨r3, ht3, hr3, hlen3, _, hcont3⟩
  · exact absurd (by omega) hp
  obtain ⟨ds4, t4, hs4, hdig4, hfv4, hcanon4, hdisj4⟩ :=
    ipv4Fields_sound_aux r3 0 0 (by omega) 3
      ([] ++ [foldval 0 ds1] ++ [foldval 0 ds2] ++ [foldval 0 ds3]) out hcont3
  rcases hdisj4 with ⟨ht4, _, ho4⟩ | ⟨_, _, _, _, hp, _⟩
  · have hne1 : ds1 ≠ [] := by
      intro h0; rw [h0] at hlen1; simp at hlen1
    have hne2 : ds2 ≠ [] := by
      intro h0; rw [h0] at hlen2; simp at hlen2
    have hne3 : ds3 ≠ [] := by
      intro h0; rw [h0] at hlen3; simp at hlen3
    have hne4 : ds4 ≠ [] := by
      intro h0
      rw [h0] at hs4
      rw [ht4] at hs4
      simp at hs4
      exact hr3 hs4
    have hq1 : natDigits (foldval 0 ds1) = ds1 := by
      rw [← digitsVal_def]
      exact natDigits_digitsVal ds1 hdig1 hne1 ((hcanon1 rfl).2 rfl)
    have hq2 : natDigits (foldval 0 ds2) = ds2 := by
      rw [← digitsVal_def]
      exact natDigits_digitsVal ds2 hdig2 hne2 ((hcanon2 rfl).2 rfl)
    have hq3 : natDigits (foldval 0 ds3) = ds3 := by
      rw [← digitsVal_def]
      exact natDigits_digitsVal ds3 hdig3 hne3 ((hcanon3 rfl).2 rfl)
    have hq4 : natDigits (foldval 0 ds4) = ds4 := by
      rw [← digitsVal_def]
      exact natDigits_digitsVal ds4 hdig4 hne4 ((hcanon4 rfl).2 rfl)
    refine ⟨foldval 0 ds1, foldval 0 ds2, foldval 0 ds3, foldval 0 ds4,
      hfv1, hfv2, hfv3, hfv4, ?_, ?_⟩
    · rw [hs1, ht1, hs2, ht2, hs3, ht3, hs4, ht4]
      unfold quadStr
      rw [hq1, hq2, hq3, hq4]
      simp
    · rw [ho4]
      simp
  · exact absurd rfl hp

/-- Helper: equation of the dispatch scan on the empty string. -/
theorem findSpecial_nil : findSpecial [] = none := rfl

/-- Helper: equation of the dispatch scan on a leading character. -/
theorem findSpecial_cons (c : Char) (rest : GoString) :
    findSpecial (c :: rest) =
      if c = '.' ∨ c = ':' ∨ c = '%' then some c else findSpecial rest := rfl

/-- Helper: the dispatch scan returns a dot, colon or percent sign that
occurs in the input. -/
theorem findSpecial_spec : ∀ (s : GoString) (ch : Char),
    findSpecial s = some ch →
    ch ∈ s ∧ (ch = '.' ∨ ch = ':' ∨ ch = '%') := by
  intro s
  induction s with
  | nil => intro ch h; rw [findSpecial_nil] at h; exact absurd h (by simp)
  | cons c rest ih =>
      intro ch h
      rw [findSpecial_cons] at h
      by_cases hc : c = '.' ∨ c = ':' ∨ c = '%'
      · rw [if_pos hc] at h
        have := Option.some_inj.mp h
        subst this
        exact ⟨by simp, hc⟩
      · rw [if_neg hc] at h
        obtain ⟨hmem, hch⟩ := ih ch h
        exact ⟨by simp [hmem], hch⟩

/-- Helper: digit characters are not dispatch characters. -/
theorem findSpecial_digits : ∀ (ds : GoString),
    (∀ c ∈ ds, c.isDigit = true) → ∀ rest,
    findSpecial (ds ++ rest) = findSpecial rest := by
  intro ds
  induction ds with
  | nil => intro _ rest; simp
  | cons c ds' ih =>
      intro hdig rest
      have hcd : c.isDigit = true := hdig c (by simp)
      rw [List.cons_append, findSpecial_cons]
      rw [if_neg ?_]
      · exact ih (fun x hx => hdig x (by simp [hx])) rest
      · rintro (h | h | h) <;> (subst h; simp at hcd)

/-- Helper: the dispatch scan of a dotted quad finds the dot. -/
theorem findSpecial_quad (a b c d : Nat) :
    findSpecial (quadStr a b c d) = some '.' := by
  unfold quadStr
  rw [findSpecial_digits (natDigits a) (natDigits_all_digit a)]
  rw [findSpecial_cons]
  rw [if_pos (by left; rfl)]

/-- Helper: on a colon-free string net.ParseIP succeeds exactly on the
canonical dotted quads. -/
theorem goParseIP_colonFree (s : GoString) (hcf : ':' ∉ s) :
    (goParseIP s).isSome = true ↔
      ∃ a b c d, a ≤ 255 ∧ b ≤ 255 ∧ c ≤ 255 ∧ d ≤ 255 ∧
        s = quadStr a b c d := by
  constructor
  · intro h
    unfold goParseIP at h
    cases hfs : findSpecial s with
    | none => rw [hfs] at h; simp at h
    | some ch =>
      rw [hfs] at h
      obtain ⟨hmem, hch⟩ := findSpecial_spec s ch hfs
      rcases hch with hch | hch | hch
      · subst hch
        dsimp only at h
        rw [if_pos rfl] at h
        cases hout : ipv4Fields s 0 0 0 [] with
        | none => rw [hout] at h; simp at h
        | some out =>
            obtain ⟨a, b, c, d, ha, hb, hc, hd, hs, _⟩ :=
              ipv4Fields_sound s out hout
            exact ⟨a, b, c, d, ha, hb, hc, hd, hs⟩
      · subst hch
        exact absurd hmem hcf
      · subst hch
        dsimp only at h
        rw [if_neg (by decide), if_neg (by decide)] at h
        simp at h
  · rintro ⟨a, b, c, d, ha, hb, hc, hd, rfl⟩
    unfold goParseIP
    rw [findSpecial_quad]
    dsimp only
    rw [if_pos rfl, ipv4Fields_quad a b c d ha hb hc hd]
    rfl

end UpdateRoute53

namespace UpdateRoute53

/-- Claim C2 (amended): after trimming, a colon-free response body is
accepted exactly when it is a canonical dotted-quad IPv4 literal with
octets 0-255; but a body carrying an IPv6 literal such as ::1 is also
accepted, because the code validates with net.ParseIP, which parses IPv6
as well. -/
theorem spec_C2 :
    (∀ body : GoString, ':' ∉ trimSpace body →
      (observeAccepts body = true ↔
        ∃ a b c d, a ≤ 255 ∧ b ≤ 255 ∧ c ≤ 255 ∧ d ≤ 255 ∧
          trimSpace body = quadStr a b c d)) ∧
    observeAccepts "::1".toList = true := by
  constructor
  · intro body hcf
    unfold observeAccepts
    exact goParseIP_colonFree (trimSpace body) hcf
  · rfl

/-- Claim C2 counterexample: the IPv6 literal ::1 is accepted by the
observer although it is not a dotted-quad IPv4 literal, contradicting the
claim that all non-IPv4 strings are rejected. -/
theorem spec_C2_counterexample :
    observeAccepts "::1".toList = true ∧
    ¬∃ a b c d, a ≤ 255 ∧ b ≤ 255 ∧ c ≤ 255 ∧ d ≤ 255 ∧
      trimSpace "::1".toList = quadStr a b c d := by
  refine ⟨rfl, ?_⟩
  rintro ⟨a, b, c, d, _, _, _, _, h⟩
  have h1 : trimSpace "::1".toList = "::1".toList := rfl
  rw [h1] at h
  have h2 := findSpecial_quad a b c d
  rw [← h] at h2
  have h3 : findSpecial "::1".toList = some ':' := rfl
  rw [h3] at h2
  exact absurd (Option.some_inj.mp h2) (by decide)

/-- Claim C2 witness: the canonical quad 1.2.3.4 is accepted through the
amended characterization. -/
theorem spec_C2_witness : observeAccepts "1.2.3.4".toList = true :=
  (spec_C2.1 "1.2.3.4".toList (by decide)).mpr
    ⟨1, 2, 3, 4, by omega, by omega, by omega, by omega, by decide⟩

end UpdateRoute53
